import Mathlib

/-!
Shallow embedding of `src/app/pnl_native/src/lib.rs` (the `_pnl_rs` native
module of BZM2000/trading-bot): a FIFO lot-matching PnL engine
(`summarise_trades`) and an order/fill reconciler (`process_orders_internal`).

Modelling conventions, stated once:
* `rust_decimal::Decimal` values are modelled by exact rationals (`ℚ`).
  The engine only adds, subtracts, multiplies and compares decimals on the
  trade path, for which `ℚ` is an exact model; `Decimal`'s 28-digit rounding
  on division (used only for `average_fill_price`) and its 96-bit magnitude
  cap are not modelled.  Decimal stringification at the JSON boundary is out
  of the core's scope and is not modelled; theorems speak about the exact
  values.
* `chrono::DateTime<Utc>` instants are modelled by `Int` microseconds since
  the Unix epoch (the code builds them from microsecond inputs and compares
  them; sub-microsecond precision is never produced by the inputs modelled
  here).
* `Utc::now()` (read once, in `resolve_submitted_time`'s last fallback) is
  modelled by an explicit `wallClock : Int` parameter threaded from the top,
  as the repository spec itself suggests for testability.
* Fallible Rust paths returning `PyResult`/`Result` are modelled with
  `Except String`; all error constructors of the code are `PyValueError`
  (a parse error reported to the caller), so a single error type suffices.
-/

namespace PnlRs

/-- Model of `rust_decimal`'s digit-string payload: folds a run of decimal
digits into its value together with the digit count; `none` if any
character is not an ASCII digit. -/
def decimalDigits (cs : List Char) : Option (Nat × Nat) :=
  cs.foldl
    (fun acc c =>
      acc.bind (fun vn =>
        if c.isDigit then some (vn.1 * 10 + (c.toNat - 48), vn.2 + 1) else none))
    (some (0, 0))

/-- `List.span`, re-stated by structural recursion so that proofs can
evaluate it by unfolding. -/
def spanP (p : Char → Bool) : List Char → List Char × List Char
  | [] => ([], [])
  | c :: cs =>
    if p c then
      let r := spanP p cs
      (c :: r.1, r.2)
    else ([], c :: cs)

/-- Unsigned part of `Decimal::from_str`: digits with at most one decimal
point, at least one digit overall. -/
def decimalFromChars (cs : List Char) : Option ℚ :=
  let p := spanP (fun c => c ≠ '.') cs
  match decimalDigits p.1 with
  | none => none
  | some iv =>
    match p.2 with
    | [] => if iv.2 = 0 then none else some (iv.1 : ℚ)
    | _ :: frac =>
      match decimalDigits frac with
      | none => none
      | some fv =>
        if iv.2 = 0 ∧ fv.2 = 0 then none
        else some ((iv.1 : ℚ) + (fv.1 : ℚ) / ((10 : ℚ) ^ fv.2))

/-- Model of `Decimal::from_str`: optional sign, digits, at most one point.
(`rust_decimal`'s precision limits and digit-separator extensions are not
modelled; no claim depends on them.) -/
def decimalFromString (s : String) : Option ℚ :=
  match s.data with
  | [] => none
  | c :: rest =>
    if c = '-' then (decimalFromChars rest).map (fun q => -q)
    else if c = '+' then decimalFromChars rest
    else decimalFromChars (c :: rest)

/-- `parse_decimal` (lib.rs:135): `Decimal::from_str` with a labelled
`PyValueError` on failure. -/
def parse_decimal (value : String) (label : String) : Except String ℚ :=
  match decimalFromString value with
  | some d => Except.ok d
  | none => Except.error ("invalid decimal for " ++ label ++ ": " ++ value)

/-- Earliest second accepted by `chrono::NaiveDateTime::from_timestamp_opt`
(year −262144).  The exact constant is irrelevant to every theorem below;
it only fixes the modelled acceptance window. -/
def naiveDateTimeMinSecs : Int := -8334632851200

/-- Latest second accepted by `chrono::NaiveDateTime::from_timestamp_opt`
(year 262143). -/
def naiveDateTimeMaxSecs : Int := 8210298412799

/-- `timestamp_us_to_datetime` (lib.rs:126): splits microseconds with
Euclidean div/mod exactly as `div_euclid`/`rem_euclid` and fails when the
seconds fall outside chrono's representable range.  The surviving instant
is the same microsecond count, so the function returns its input on
success. -/
def timestamp_us_to_datetime (ts : Int) : Except String Int :=
  let secs := Int.ediv ts 1000000
  if secs < naiveDateTimeMinSecs ∨ naiveDateTimeMaxSecs < secs then
    Except.error "timestamp out of range"
  else Except.ok ts

inductive Side where
  | buy
  | sell
deriving DecidableEq, Repr

/-- `str::trim` on the character list: whitespace stripped from both ends.
(Lean's `Char.isWhitespace` covers the ASCII whitespace characters; the
exotic Unicode spaces Rust also strips never appear in these payloads.) -/
def trimChars (cs : List Char) : List Char :=
  ((cs.dropWhile Char.isWhitespace).reverse.dropWhile Char.isWhitespace).reverse

/-- `str::trim`, as a kernel-reducible definition. -/
def strTrim (s : String) : String := { data := trimChars s.data }

/-- `s.to_ascii_uppercase()`: Lean's `Char.toUpper` uppercases exactly the
ASCII lowercase letters, matching the Rust method. -/
def toAsciiUppercase (s : String) : String := { data := s.data.map Char.toUpper }

/-- `Side::try_from` (lib.rs:84-94): case-insensitive `BUY`/`SELL`, any
other text is a hard error carrying the uppercased text. -/
def Side.try_from (value : String) : Except String Side :=
  let upper := toAsciiUppercase value
  if upper = "BUY" then Except.ok Side.buy
  else if upper = "SELL" then Except.ok Side.sell
  else Except.error ("unknown side: " ++ upper)

structure TradeInput where
  timestamp_us : Int
  side : String
  price : String
  size : String
  post_only : Bool
deriving DecidableEq, Repr

structure IntervalSpec where
  key : String
  label : String
  delta_seconds : Option Int
deriving DecidableEq, Repr

structure Trade where
  timestamp : Int
  side : Side
  price : ℚ
  size : ℚ
  post_only : Bool
deriving DecidableEq, Repr

structure Lot where
  price : ℚ
  size : ℚ
deriving DecidableEq, Repr

structure Entry where
  timestamp : Int
  realized_profit : ℚ
  maker_volume : ℚ
  taker_volume : ℚ
  fee : ℚ
deriving DecidableEq, Repr

structure RawMetrics where
  profit_before_fees : ℚ
  maker_volume : ℚ
  taker_volume : ℚ
  fee_total : ℚ
  profit_after_fees : ℚ
deriving DecidableEq, Repr

/-- Per-unit realized profit against a lot: a buy closes a short lot at
`front.price − trade.price`, a sell closes a long lot at
`trade.price − front.price` (lib.rs:155, lib.rs:176). -/
def lotProfit (side : Side) (tradePrice lotPrice : ℚ) : ℚ :=
  match side with
  | Side.buy => lotPrice - tradePrice
  | Side.sell => tradePrice - lotPrice

/-- The inner `while remaining > zero` matching loop of `build_entries`
(lib.rs:152-164 for buys, lib.rs:173-185 for sells), against the
opposite-side queue.  Returns `(realized, remaining, queue)`.

One transformation from the Rust text, forced by termination: when the
front lot is *not* exhausted (`newSize > 0`) the matched amount necessarily
equals the whole remaining amount, so the Rust loop's next `remaining >
zero` test fails and it exits; that exit is inlined here instead of
recursing on an unchanged queue. -/
def matchLoop (side : Side) (price : ℚ) : ℚ → List Lot → ℚ → ℚ × ℚ × List Lot
  | remaining, queue, realized =>
    if remaining ≤ 0 then (realized, remaining, queue)
    else
      match queue with
      | [] => (realized, remaining, [])
      | l :: rest =>
        let matched := if remaining ≤ l.size then remaining else l.size
        let realized' := realized + lotProfit side price l.price * matched
        let newSize := l.size - matched
        let remaining' := remaining - matched
        if newSize ≤ 0 then matchLoop side price remaining' rest realized'
        else (realized', remaining', { price := l.price, size := newSize } :: rest)

/-- The two FIFO inventory queues of one `build_entries` run
(lib.rs:141-142). -/
structure MatchState where
  longLots : List Lot
  shortLots : List Lot
deriving DecidableEq, Repr

/-- The per-trade `Entry` record construction (lib.rs:195-207). -/
def mkEntry (makerFee takerFee : ℚ) (t : Trade) (realized : ℚ) : Entry :=
  let notional := t.price * t.size
  { timestamp := t.timestamp
    realized_profit := realized
    maker_volume := if t.post_only then notional else 0
    taker_volume := if t.post_only then 0 else notional
    fee := notional * (if t.post_only then makerFee else takerFee) }

/-- One iteration of `build_entries`' outer loop (lib.rs:146-208): match
against the opposite queue, append any unmatched remainder as a new lot on
the own side, emit the trade's `Entry`. -/
def applyTrade (makerFee takerFee : ℚ) (s : MatchState) (t : Trade) :
    MatchState × Entry :=
  match t.side with
  | Side.buy =>
    let r := matchLoop Side.buy t.price t.size s.shortLots 0
    let longs' :=
      if 0 < r.2.1 then s.longLots ++ [{ price := t.price, size := r.2.1 }]
      else s.longLots
    ({ longLots := longs', shortLots := r.2.2 }, mkEntry makerFee takerFee t r.1)
  | Side.sell =>
    let r := matchLoop Side.sell t.price t.size s.longLots 0
    let shorts' :=
      if 0 < r.2.1 then s.shortLots ++ [{ price := t.price, size := r.2.1 }]
      else s.shortLots
    ({ longLots := r.2.2, shortLots := shorts' }, mkEntry makerFee takerFee t r.1)

/-- The outer trade loop of `build_entries`, also returning the final queue
state (the Rust function keeps it local). -/
def runTrades (makerFee takerFee : ℚ) : MatchState → List Trade →
    MatchState × List Entry
  | s, [] => (s, [])
  | s, t :: ts =>
    let step := applyTrade makerFee takerFee s t
    let rest := runTrades makerFee takerFee step.1 ts
    (rest.1, step.2 :: rest.2)

/-- `build_entries` (lib.rs:140-211): per-trade `Entry` list of a FIFO
matching run started from empty queues. -/
def build_entries (trades : List Trade) (makerFee takerFee : ℚ) : List Entry :=
  (runTrades makerFee takerFee { longLots := [], shortLots := [] } trades).2

/-- `summarise_interval` (lib.rs:213-238): sums the entries with
`timestamp ≥ start`. -/
def summarise_interval (entries : List Entry) (start : Int) : RawMetrics :=
  let acc :=
    entries.foldl
      (fun (a : ℚ × ℚ × ℚ × ℚ) e =>
        if e.timestamp < start then a
        else
          (a.1 + e.realized_profit, a.2.1 + e.maker_volume,
            a.2.2.1 + e.taker_volume, a.2.2.2 + e.fee))
      (0, 0, 0, 0)
  { profit_before_fees := acc.1
    maker_volume := acc.2.1
    taker_volume := acc.2.2.1
    fee_total := acc.2.2.2
    profit_after_fees := acc.1 - acc.2.2.2 }

/-- `interval_start` (lib.rs:240-248): `cutoff` for the all-time window,
otherwise `now − max(deltaSeconds, 0)` clamped from below to `cutoff`.
`Duration::seconds` converts seconds to the microsecond timeline. -/
def interval_start (now : Int) (delta : Option Int) (cutoff : Int) : Int :=
  match delta with
  | none => cutoff
  | some seconds =>
    let start := now - max seconds 0 * 1000000
    if start < cutoff then cutoff else start

/-- The trade-parsing loop of `summarise_trades` (lib.rs:265-284), in the
code's exact check order: price parse, size parse, positivity skip,
timestamp conversion, cutoff skip, side parse (hard error). -/
def parseTrades (cutoff : Int) : List TradeInput → Except String (List Trade)
  | [] => Except.ok []
  | t :: ts =>
    match parse_decimal t.price "price" with
    | Except.error e => Except.error e
    | Except.ok price =>
      match parse_decimal t.size "size" with
      | Except.error e => Except.error e
      | Except.ok size =>
        if size ≤ 0 ∨ price ≤ 0 then parseTrades cutoff ts
        else
          match timestamp_us_to_datetime t.timestamp_us with
          | Except.error e => Except.error e
          | Except.ok timestamp =>
            if timestamp < cutoff then parseTrades cutoff ts
            else
              match Side.try_from t.side with
              | Except.error e => Except.error e
              | Except.ok side =>
                match parseTrades cutoff ts with
                | Except.error e => Except.error e
                | Except.ok rest =>
                  Except.ok
                    ({ timestamp := timestamp, side := side, price := price,
                        size := size, post_only := t.post_only } :: rest)

structure IntervalResult where
  key : String
  label : String
  metrics : RawMetrics
deriving DecidableEq, Repr

structure Summary where
  intervals : List IntervalResult
  total_profit_before_fees : ℚ
  total_profit_after_fees : ℚ
deriving DecidableEq, Repr

/-- Insert a trade into an already-sorted list, after every element with a
strictly smaller timestamp — i.e. before the first element whose timestamp
is not smaller, which keeps earlier-input trades with equal timestamps in
front. -/
def insertSorted (t : Trade) : List Trade → List Trade
  | [] => [t]
  | u :: us =>
    if u.timestamp < t.timestamp then u :: insertSorted t us
    else t :: u :: us

/-- `parsed_trades.sort_by_key(|trade| trade.timestamp)` (lib.rs:286).
Rust's `sort_by_key` is a stable sort, and a stable sort by key is a
uniquely determined function of its input; it is modelled by stable
insertion sort, which the kernel can evaluate. -/
def sortTradesByTimestamp : List Trade → List Trade
  | [] => []
  | t :: ts => insertSorted t (sortTradesByTimestamp ts)

/-- One step of the interval loop of `summarise_trades` (lib.rs:293-311):
append the interval's metrics and overwrite the grand totals when the
spec's key is the sentinel `"all"`. -/
def intervalStep (entries : List Entry) (now cutoff : Int)
    (acc : List IntervalResult × ℚ × ℚ) (spec : IntervalSpec) :
    List IntervalResult × ℚ × ℚ :=
  let start := interval_start now spec.delta_seconds cutoff
  let metrics := summarise_interval entries start
  let totals :=
    if spec.key = "all" then (metrics.profit_before_fees, metrics.profit_after_fees)
    else acc.2
  (acc.1 ++ [{ key := spec.key, label := spec.label, metrics := metrics }], totals)

/-- `summarise_trades` (lib.rs:250-319).  `wallClock` models the ambient
clock available to the process; the trade path never reads it (verified by
the determinism theorem below). -/
def summarise_trades (wallClock : Int) (trades : List TradeInput)
    (intervals : List IntervalSpec) (now_timestamp_us cutoff_timestamp_us : Int)
    (maker_fee_rate taker_fee_rate : String) : Except String Summary :=
  match parse_decimal maker_fee_rate "maker_fee_rate" with
  | Except.error e => Except.error e
  | Except.ok maker_fee =>
    match parse_decimal taker_fee_rate "taker_fee_rate" with
    | Except.error e => Except.error e
    | Except.ok taker_fee =>
      match timestamp_us_to_datetime now_timestamp_us with
      | Except.error e => Except.error e
      | Except.ok now =>
        match timestamp_us_to_datetime cutoff_timestamp_us with
        | Except.error e => Except.error e
        | Except.ok cutoff =>
          match parseTrades cutoff trades with
          | Except.error e => Except.error e
          | Except.ok parsed =>
            let sorted := sortTradesByTimestamp parsed
            let entries := build_entries sorted maker_fee taker_fee
            let folded :=
              intervals.foldl (intervalStep entries now cutoff) ([], 0, 0)
            Except.ok
              { intervals := folded.1
                total_profit_before_fees := folded.2.1
                total_profit_after_fees := folded.2.2 }

/-! ## Order/fill reconciliation -/

/-- Model of `serde_json::Value` as the reconciler consumes it.  JSON
numbers carry the display string `serde_json` would print for them: the
reconciler never uses numeric structure, it only stringifies values and
re-parses them as decimals or timestamps. -/
inductive JsonValue where
  | null
  | bool (b : Bool)
  | num (display : String)
  | str (s : String)
  | arr (items : List JsonValue)
  | obj (fields : List (String × JsonValue))

/-- `Value::as_object`.  `serde_json` maps are modelled as association
lists looked up by first match (JSON object keys are unique). -/
def JsonValue.asObject : JsonValue → Option (List (String × JsonValue))
  | JsonValue.obj fields => some fields
  | _ => none

/-- `Map::get` on a `serde_json` object. -/
def objGet (fields : List (String × JsonValue)) (key : String) :
    Option JsonValue :=
  (fields.find? (fun f => f.1 = key)).map (fun f => f.2)

/-- `value_to_string` (lib.rs:321-328): strings verbatim, numbers and
booleans via their display form, everything else `None`. -/
def value_to_string (value : JsonValue) : Option String :=
  match value with
  | JsonValue.str s => some s
  | JsonValue.num n => some n
  | JsonValue.bool b => some (if b then "true" else "false")
  | _ => none

/-- `option_to_string` (lib.rs:330-332). -/
def option_to_string (value : Option JsonValue) : Option String :=
  value.bind value_to_string

/-- `decimal_from_value` (lib.rs:334-336): stringify, trim, decimal-parse. -/
def decimal_from_value (value : Option JsonValue) : Option ℚ :=
  (option_to_string value).bind (fun text => decimalFromString (strTrim text))

/-- `parse_boolish` (lib.rs:365-378). -/
def parse_boolish (value : Option JsonValue) : Option Bool :=
  match value with
  | some (JsonValue.bool b) => some b
  | some other =>
    (value_to_string other).bind (fun s =>
      let lower : String := { data := (trimChars s.data).map Char.toLower }
      if lower = "true" then some true
      else if lower = "false" then some false
      else none)
  | none => none

/-! ### Timestamp text parsing

`parse_datetime_text` (lib.rs:338-353) tries RFC3339, then the naive
format `%Y-%m-%dT%H:%M:%S%.f`, then the same with a space separator.
The model parses four-digit years, two-digit month/day/hour/minute/second
fields and an optional fraction (kept to microsecond precision, matching
the instant model); chrono extensions that no input of this code base
exercises (signed or five-digit years, leap second 60) are not modelled. -/

/-- Read exactly `k` ASCII digits, returning their value and the rest. -/
def readFixedNat : Nat → List Char → Nat → Option (Nat × List Char)
  | 0, cs, acc => some (acc, cs)
  | _ + 1, [], _ => none
  | k + 1, c :: cs, acc =>
    if c.isDigit then readFixedNat k cs (acc * 10 + (c.toNat - 48)) else none

/-- Proleptic-Gregorian leap year. -/
def isLeapYear (y : Int) : Bool :=
  Int.emod y 4 = 0 ∧ (Int.emod y 100 ≠ 0 ∨ Int.emod y 400 = 0)

def daysInMonth (y : Int) (m : Nat) : Nat :=
  match m with
  | 1 => 31
  | 2 => if isLeapYear y then 29 else 28
  | 3 => 31
  | 4 => 30
  | 5 => 31
  | 6 => 30
  | 7 => 31
  | 8 => 31
  | 9 => 30
  | 10 => 31
  | 11 => 30
  | 12 => 31
  | _ => 0

/-- Days between a civil date and 1970-01-01 (the standard era-based
`days_from_civil` computation chrono implements). -/
def daysFromCivil (y : Int) (m d : Nat) : Int :=
  let yShift : Int := if m ≤ 2 then y - 1 else y
  let era : Int := Int.ediv yShift 400
  let yoe : Int := yShift - era * 400
  let mp : Int := Int.emod (Int.ofNat m + 9) 12
  let doy : Int := Int.ediv (153 * mp + 2) 5 + (Int.ofNat d - 1)
  let doe : Int := yoe * 365 + Int.ediv yoe 4 - Int.ediv yoe 100 + doy
  era * 146097 + doe - 719468

/-- Parse `YYYY-MM-DD`, validating the calendar date. -/
def parseDateCivil (cs : List Char) :
    Option (Int × Nat × Nat × List Char) :=
  match readFixedNat 4 cs 0 with
  | none => none
  | some (y, r1) =>
    match r1 with
    | c1 :: r2 =>
      if c1 = '-' then
        match readFixedNat 2 r2 0 with
        | none => none
        | some (m, r3) =>
          match r3 with
          | c2 :: r4 =>
            if c2 = '-' then
              match readFixedNat 2 r4 0 with
              | none => none
              | some (d, r5) =>
                if 1 ≤ m ∧ m ≤ 12 ∧ 1 ≤ d ∧ d ≤ daysInMonth (Int.ofNat y) m then
                  some (Int.ofNat y, m, d, r5)
                else none
            else none
          | [] => none
      else none
    | [] => none

/-- Parse `HH:MM:SS`, returning the second of the day. -/
def parseTimeOfDay (cs : List Char) : Option (Nat × List Char) :=
  match readFixedNat 2 cs 0 with
  | none => none
  | some (h, r1) =>
    match r1 with
    | c1 :: r2 =>
      if c1 = ':' then
        match readFixedNat 2 r2 0 with
        | none => none
        | some (mi, r3) =>
          match r3 with
          | c2 :: r4 =>
            if c2 = ':' then
              match readFixedNat 2 r4 0 with
              | none => none
              | some (s, r5) =>
                if h ≤ 23 ∧ mi ≤ 59 ∧ s ≤ 59 then
                  some (h * 3600 + mi * 60 + s, r5)
                else none
            else none
          | [] => none
      else none
    | [] => none

/-- Value in microseconds of a fractional-second digit run (first six
digits, right-padded with zeros). -/
def fractionMicros (ds : List Char) : Nat :=
  let six := (ds.take 6) ++ List.replicate (6 - min 6 ds.length) '0'
  (six.foldl (fun acc c => acc * 10 + (c.toNat - 48)) 0)

/-- Parse chrono's `%.f`: nothing, or a point followed by at least one
digit. -/
def parseFraction (cs : List Char) : Option (Nat × List Char) :=
  match cs with
  | c :: rest =>
    if c = '.' then
      let p := spanP (fun d => d.isDigit) rest
      if p.1 = [] then none else some (fractionMicros p.1, p.2)
    else some (0, cs)
  | [] => some (0, cs)

/-- Parse the `HH:MM` body of a numeric RFC3339 offset; seconds. -/
def parseOffsetHm (cs : List Char) : Option (Nat × List Char) :=
  match readFixedNat 2 cs 0 with
  | none => none
  | some (h, r1) =>
    match r1 with
    | c :: r2 =>
      if c = ':' then
        match readFixedNat 2 r2 0 with
        | none => none
        | some (mi, r3) =>
          if h ≤ 23 ∧ mi ≤ 59 then some (h * 3600 + mi * 60, r3) else none
      else none
    | [] => none

/-- Parse an RFC3339 offset: `Z`, `z`, or `±HH:MM`; result in seconds. -/
def parseOffset (cs : List Char) : Option (Int × List Char) :=
  match cs with
  | c :: rest =>
    if c = 'Z' ∨ c = 'z' then some (0, rest)
    else if c = '+' then
      match parseOffsetHm rest with
      | some vr => some (Int.ofNat vr.1, vr.2)
      | none => none
    else if c = '-' then
      match parseOffsetHm rest with
      | some vr => some (-(Int.ofNat vr.1), vr.2)
      | none => none
    else none
  | [] => none

/-- Microseconds since epoch of a civil date-time. -/
def civilToMicros (y : Int) (m d sod : Nat) (micros : Nat) : Int :=
  (daysFromCivil y m d * 86400 + Int.ofNat sod) * 1000000 + Int.ofNat micros

/-- One naive date-time format `%Y-%m-%d<sep>%H:%M:%S%.f`, entire text
consumed. -/
def parseNaiveWith (sep : Char) (cs : List Char) : Option Int :=
  match parseDateCivil cs with
  | none => none
  | some (y, m, d, r1) =>
    match r1 with
    | c :: r2 =>
      if c = sep then
        match parseTimeOfDay r2 with
        | none => none
        | some (sod, r3) =>
          match parseFraction r3 with
          | none => none
          | some (micros, r4) =>
            if r4 = [] then some (civilToMicros y m d sod micros) else none
      else none
    | [] => none

/-- `DateTime::parse_from_rfc3339`, normalised to UTC: date, `T`/`t`,
time, optional fraction, mandatory offset. -/
def parseRfc3339 (cs : List Char) : Option Int :=
  match parseDateCivil cs with
  | none => none
  | some (y, m, d, r1) =>
    match r1 with
    | c :: r2 =>
      if c = 'T' ∨ c = 't' then
        match parseTimeOfDay r2 with
        | none => none
        | some (sod, r3) =>
          match parseFraction r3 with
          | none => none
          | some (micros, r4) =>
            match parseOffset r4 with
            | none => none
            | some (off, r5) =>
              if r5 = [] then
                some (civilToMicros y m d sod micros - off * 1000000)
              else none
      else none
    | [] => none

/-- `parse_datetime_text` (lib.rs:338-353): trim, empty is absent, then
RFC3339, then the `T`-separated naive format, then the space-separated
one. -/
def parse_datetime_text (text : String) : Option Int :=
  let trimmed := strTrim text
  if trimmed = "" then none
  else
    match parseRfc3339 trimmed.data with
    | some dt => some dt
    | none =>
      match parseNaiveWith 'T' trimmed.data with
      | some dt => some dt
      | none => parseNaiveWith ' ' trimmed.data

/-- `parse_datetime_value` (lib.rs:355-359). -/
def parse_datetime_value (value : Option JsonValue) : Option Int :=
  (option_to_string value).bind
    (fun s => if s = "" then none else parse_datetime_text s)

/-! ### Raw records and fill aggregation -/

structure RawOrder where
  order_id : Option String
  status : Option String
  legacy_status : Option String
  client_order_id : Option String
  side : Option String
  completed_time : Option String
  expire_time : Option String
  submitted_time : Option String
  created_time : Option String
  order_placed_time : Option String
  last_fill_time : Option String
  average_filled_price : Option String
  product_id : Option String
  order_configuration : Option JsonValue

structure RawFill where
  order_id : Option String
  trade_time : Option String
  size : Option JsonValue
  base_size : Option JsonValue
  price : Option JsonValue
  unit_price : Option JsonValue
  average_price : Option JsonValue

structure FillData where
  size : ℚ
  price : ℚ
  trade_time : Option Int
deriving DecidableEq, Repr

/-- The non-empty-string guard used for order ids and product ids
(`.and_then(|s| if s.is_empty() { None } else { Some(s.clone()) })`). -/
def nonEmptyString (s : Option String) : Option String :=
  s.bind (fun t => if t = "" then none else some t)

/-- The per-fill validation of `collect_fills` (lib.rs:389-412): non-empty
order id; size from `size` else `base_size`; price from `price` else
`unit_price` else `average_price`; both strictly positive; trade time
parsed leniently. -/
def validFillData (fill : RawFill) : Option (String × FillData) :=
  match nonEmptyString fill.order_id with
  | none => none
  | some order_id =>
    let size :=
      (decimal_from_value fill.size).orElse
        (fun _ => decimal_from_value fill.base_size)
    let price :=
      (decimal_from_value fill.price).orElse
        (fun _ => (decimal_from_value fill.unit_price).orElse
          (fun _ => decimal_from_value fill.average_price))
    match size, price with
    | some size, some price =>
      if size ≤ 0 ∨ price ≤ 0 then none
      else
        some (order_id,
          { size := size, price := price,
            trade_time := fill.trade_time.bind parse_datetime_text })
    | _, _ => none

/-- The valid fills of one order id, in input order — the vector
`collect_fills` (lib.rs:387-415) accumulates under that key. -/
def collect_fills (fills : List RawFill) (oid : String) : List FillData :=
  fills.filterMap (fun f =>
    match validFillData f with
    | some idd => if idd.1 = oid then some idd.2 else none
    | none => none)

/-- `fills_by_order.get(&order_id)` (lib.rs:578): the `HashMap` holds a key
exactly when at least one valid fill carried it. -/
def fillsLookup (fills : List RawFill) (oid : String) :
    Option (List FillData) :=
  let l := collect_fills fills oid
  if l = [] then none else some l

/-- `min_datetime` (lib.rs:457-459). -/
def min_datetime (values : List (Option Int)) : Option Int :=
  (values.filterMap id).foldl
    (fun acc v =>
      match acc with
      | none => some v
      | some a => some (min a v))
    none

/-- The order-id and config detection of the reconciler loop. -/
inductive OrderConfigType where
  | limit
  | stopLimit
  | triggerBracket
  | market
  | unknown
deriving DecidableEq, Repr

/-- A configuration-variant candidate: the named key, present as a nested
object. -/
def configCandidate (container : List (String × JsonValue)) (key : String) :
    Option (List (String × JsonValue)) :=
  (objGet container key).bind JsonValue.asObject

/-- `extract_order_config` (lib.rs:425-455): fixed priority order over the
known variant keys; anything else is `Unknown` with no field map. -/
def extract_order_config (value : Option JsonValue) :
    OrderConfigType × Option (List (String × JsonValue)) :=
  match value.bind JsonValue.asObject with
  | none => (OrderConfigType.unknown, none)
  | some container =>
    match (configCandidate container "limit_limit_gtd").orElse
        (fun _ => configCandidate container "limit_limit_gtc") with
    | some entry => (OrderConfigType.limit, some entry)
    | none =>
      match (configCandidate container "stop_limit_stop_limit_gtd").orElse
          (fun _ => configCandidate container "stop_limit_stop_limit_gtc") with
      | some entry => (OrderConfigType.stopLimit, some entry)
      | none =>
        match (configCandidate container "trigger_bracket_gtd").orElse
            (fun _ => configCandidate container "trigger_bracket_gtc") with
        | some entry => (OrderConfigType.triggerBracket, some entry)
        | none =>
          match (configCandidate container "market_market_ioc").orElse
              (fun _ => configCandidate container "market_market_gtc") with
          | some entry => (OrderConfigType.market, some entry)
          | none => (OrderConfigType.unknown, none)

/-- The shared tail of `resolve_submitted_time`: completed time, else the
wall clock flagged as inferred. -/
def submittedFallback (wallClock : Int) (completed : Option Int) :
    Int × Bool :=
  match completed with
  | some dt => (dt, false)
  | none => (wallClock, true)

/-- `resolve_submitted_time` (lib.rs:461-491): first candidate field whose
text parses, else the earliest fill trade time, else the completed time,
else `Utc::now()` marked inferred. -/
def resolve_submitted_time (wallClock : Int) (order : RawOrder)
    (fills : Option (List FillData)) (completed : Option Int) : Int × Bool :=
  let candidates :=
    [order.submitted_time, order.created_time, order.order_placed_time,
      order.last_fill_time]
  match (candidates.filterMap (fun c => c.bind parse_datetime_text)).head? with
  | some dt => (dt, false)
  | none =>
    match fills with
    | some fills_vec =>
      match min_datetime (fills_vec.map (fun f => f.trade_time)) with
      | some min_dt => (min_dt, false)
      | none => submittedFallback wallClock completed
    | none => submittedFallback wallClock completed

/-- `average_fill_price` (lib.rs:493-509).  (`Decimal` division rounds to
28 significant digits; the model divides exactly.) -/
def average_fill_price (fills : Option (List FillData)) : Option ℚ :=
  match fills with
  | none => none
  | some fills_vec =>
    let acc :=
      fills_vec.foldl
        (fun (a : ℚ × ℚ) fill =>
          if fill.size ≤ 0 ∨ fill.price ≤ 0 then a
          else (a.1 + fill.size, a.2 + fill.size * fill.price))
        (0, 0)
    if 0 < acc.1 ∧ 0 < acc.2 then some (acc.2 / acc.1) else none

structure ProcessedOpenRecord where
  order_id : String
  side : String
  limit_price : ℚ
  base_size : ℚ
  status : String
  client_order_id : String
  end_time : Option Int
  product_id : String
  stop_price : Option ℚ
deriving DecidableEq, Repr

structure ProcessedExecutedRecord where
  order_id : String
  ts_submitted : Int
  ts_submitted_inferred : Bool
  ts_filled : Option Int
  side : String
  limit_price : ℚ
  base_size : ℚ
  status : String
  filled_size : Option ℚ
  client_order_id : String
  end_time : Option Int
  product_id : String
  stop_price : Option ℚ
  post_only : Bool
deriving DecidableEq, Repr

/-- Status resolution (lib.rs:558-563): primary field, else legacy field,
uppercased, defaulting to `NEW`. -/
def orderStatus (order : RawOrder) : String :=
  (((order.status).orElse (fun _ => order.legacy_status)).map
      toAsciiUppercase).getD "NEW"

/-- Completed-time resolution (lib.rs:583-598): the order's own
completed-time field when the status is not `OPEN`, else — and whenever
that is absent or unparseable — the trade time of the *last* valid fill
(in input order) that has one. -/
def resolveCompletedTime (order : RawOrder) (status : String)
    (fills_vec : Option (List FillData)) : Option Int :=
  let primary :=
    if status ≠ "OPEN" then order.completed_time.bind parse_datetime_text
    else none
  match primary with
  | some t => some t
  | none =>
    match fills_vec with
    | some fv => (fv.filterMap (fun f => f.trade_time)).getLast?
    | none => none

/-- Shape-specific resolution (lib.rs:628-666): returns
`(limit_price, stop_price, end_time, post_only)`; `none` for the
`Unknown` arm's `continue` (unreachable once a field map is present). -/
def shapeResolve (config_type : OrderConfigType)
    (config : List (String × JsonValue))
    (fills_vec : Option (List FillData)) (order_avg_price : Option ℚ)
    (completed_time : Option Int) (submitted_time : Int)
    (expire_time : Option Int) :
    Option (ℚ × Option ℚ × Option Int × Bool) :=
  match config_type with
  | OrderConfigType.market =>
    let limit_price :=
      ((average_fill_price fills_vec).orElse (fun _ => order_avg_price)).getD 0
    let end_time := completed_time.orElse (fun _ => some submitted_time)
    some (limit_price, none, end_time, false)
  | OrderConfigType.triggerBracket =>
    let limit_price := (decimal_from_value (objGet config "limit_price")).getD 0
    let stop_price :=
      (decimal_from_value (objGet config "stop_trigger_price")).orElse
        (fun _ => decimal_from_value (objGet config "stop_price"))
    let end_time :=
      ((parse_datetime_value (objGet config "end_time")).orElse
          (fun _ => expire_time)).orElse (fun _ => some submitted_time)
    some (limit_price, stop_price, end_time, false)
  | OrderConfigType.stopLimit =>
    let limit_price := (decimal_from_value (objGet config "limit_price")).getD 0
    let stop_price := decimal_from_value (objGet config "stop_price")
    let end_time :=
      ((parse_datetime_value (objGet config "end_time")).orElse
          (fun _ => expire_time)).orElse (fun _ => some submitted_time)
    some (limit_price, stop_price, end_time, false)
  | OrderConfigType.limit =>
    let limit_price := (decimal_from_value (objGet config "limit_price")).getD 0
    let post_only := (parse_boolish (objGet config "post_only")).getD false
    let end_time :=
      ((parse_datetime_value (objGet config "end_time")).orElse
          (fun _ => expire_time)).orElse (fun _ => some submitted_time)
    some (limit_price, none, end_time, post_only)
  | OrderConfigType.unknown => none

/-- One iteration of the reconciler's order loop (lib.rs:549-698): `none`
when the order is skipped (empty id, unclassifiable configuration), else
the optional open record and the executed record it pushes. -/
def processOrder (wallClock : Int) (fills : List RawFill)
    (default_product_id : String) (order : RawOrder) :
    Option (Option ProcessedOpenRecord × ProcessedExecutedRecord) :=
  match nonEmptyString order.order_id with
  | none => none
  | some order_id =>
    let status := orderStatus order
    match extract_order_config order.order_configuration with
    | (_, none) => none
    | (config_type, some config) =>
      let client_order_id := (order.client_order_id).getD ""
      let side_text := (order.side).getD "BUY"
      let side_enum :=
        match Side.try_from side_text with
        | Except.ok s => s
        | Except.error _ => Side.buy
      let side_str :=
        match side_enum with
        | Side.buy => "BUY"
        | Side.sell => "SELL"
      let fills_vec := fillsLookup fills order_id
      let filled_size :=
        (fills_vec.map (fun vec =>
            vec.foldl (fun acc fill => acc + fill.size) 0)).filter
          (fun total => decide (0 < total))
      let completed_time := resolveCompletedTime order status fills_vec
      let st := resolve_submitted_time wallClock order fills_vec completed_time
      let base_size0 :=
        ((decimal_from_value (objGet config "base_size")).orElse
            (fun _ => decimal_from_value (objGet config "base_order_size"))).getD 0
      let base_size :=
        if base_size0 = 0 ∧ filled_size.isSome then filled_size.getD 0
        else base_size0
      let order_avg_price :=
        (order.average_filled_price).bind
          (fun text => decimalFromString (strTrim text))
      let product_id := (nonEmptyString order.product_id).getD default_product_id
      let expire_time := (order.expire_time).bind parse_datetime_text
      match shapeResolve config_type config fills_vec order_avg_price
          completed_time st.1 expire_time with
      | none => none
      | some shape =>
        let openRecord :=
          if status = "OPEN" then
            some
              { order_id := order_id, side := side_str,
                limit_price := shape.1, base_size := base_size,
                status := status, client_order_id := client_order_id,
                end_time := shape.2.2.1, product_id := product_id,
                stop_price := shape.2.1 }
          else none
        some (openRecord,
          { order_id := order_id, ts_submitted := st.1,
            ts_submitted_inferred := st.2, ts_filled := completed_time,
            side := side_str, limit_price := shape.1,
            base_size := base_size, status := status,
            filled_size := filled_size, client_order_id := client_order_id,
            end_time := shape.2.2.1, product_id := product_id,
            stop_price := shape.2.1,
            post_only := config_type = OrderConfigType.limit ∧ shape.2.2.2 })

/-- `process_orders_internal` (lib.rs:540-701), as the order loop pushing
into the two output vectors.  The Rust signature's error case is never
produced (the function always returns `Ok`), so the model returns the pair
directly. -/
def process_orders_internal (wallClock : Int) (orders : List RawOrder)
    (fills : List RawFill) (default_product_id : String) :
    List ProcessedOpenRecord × List ProcessedExecutedRecord :=
  match orders with
  | [] => ([], [])
  | o :: rest =>
    let tail := process_orders_internal wallClock rest fills default_product_id
    match processOrder wallClock fills default_product_id o with
    | none => tail
    | some (openOpt, exec) =>
      (match openOpt with
        | some r => r :: tail.1
        | none => tail.1,
        exec :: tail.2)

/-! ## Auxiliary definitions for the claim statements -/

/-- The first candidate submitted-time field that parses — the value the
`for candidate in candidates.iter().flatten()` loop of
`resolve_submitted_time` returns, expressed on its own. -/
def firstCandidateTime (order : RawOrder) : Option Int :=
  ([order.submitted_time, order.created_time, order.order_placed_time,
      order.last_fill_time].filterMap (fun c => c.bind parse_datetime_text)).head?

/-- The earliest fill trade time of an optional fill vector, as
`resolve_submitted_time` computes it. -/
def fillsMinTime (fills : Option (List FillData)) : Option Int :=
  match fills with
  | some fills_vec => min_datetime (fills_vec.map (fun f => f.trade_time))
  | none => none

/-- Following the spec's words for the completed-time fallback: the
*latest* (maximal) fill trade time among an order's valid fills.  Stated
separately so it can be compared with what the code computes. -/
def latestFillTradeTime (fills : List FillData) : Option Int :=
  (fills.filterMap (fun f => f.trade_time)).foldl
    (fun acc v =>
      match acc with
      | none => some v
      | some a => some (max a v))
    none

/-! ## Concrete inputs used by witnesses and counterexamples -/

/-- The spec's own FIFO example: three buys of size 1 at 10, 20, 30, then
a sell of size 2 at 100. -/
def c1Trades : List Trade :=
  [{ timestamp := 0, side := Side.buy, price := 10, size := 1, post_only := false },
   { timestamp := 1, side := Side.buy, price := 20, size := 1, post_only := false },
   { timestamp := 2, side := Side.buy, price := 30, size := 1, post_only := false },
   { timestamp := 3, side := Side.sell, price := 100, size := 2, post_only := false }]

/-- A non-OPEN order with no completed-time field, classifiable as a limit
order. -/
def c2Config : JsonValue :=
  JsonValue.obj
    [("limit_limit_gtc",
      JsonValue.obj
        [("limit_price", JsonValue.str "10"), ("base_size", JsonValue.str "1")])]

def c2Order : RawOrder :=
  { order_id := some "oid1", status := some "FILLED", legacy_status := none,
    client_order_id := none, side := some "BUY", completed_time := none,
    expire_time := none, submitted_time := some "2024-01-03T00:00:00",
    created_time := none, order_placed_time := none, last_fill_time := none,
    average_filled_price := none, product_id := none,
    order_configuration := some c2Config }

/-- A valid fill whose trade time (2024-01-02) is *later* … and listed
first. -/
def c2FillLate : RawFill :=
  { order_id := some "oid1", trade_time := some "2024-01-02T00:00:00",
    size := some (JsonValue.str "1"), base_size := none,
    price := some (JsonValue.str "10"), unit_price := none,
    average_price := none }

/-- A valid fill with the *earlier* trade time (2024-01-01), listed last. -/
def c2FillEarly : RawFill :=
  { order_id := some "oid1", trade_time := some "2024-01-01T00:00:00",
    size := some (JsonValue.str "1"), base_size := none,
    price := some (JsonValue.str "10"), unit_price := none,
    average_price := none }

/-- Fills in an order that is *not* chronological: latest first. -/
def c2Fills : List RawFill := [c2FillLate, c2FillEarly]

/-- An order with every submitted-time candidate field absent. -/
def c4Order : RawOrder :=
  { order_id := some "o4", status := none, legacy_status := none,
    client_order_id := none, side := none, completed_time := none,
    expire_time := none, submitted_time := none, created_time := none,
    order_placed_time := none, last_fill_time := none,
    average_filled_price := none, product_id := none,
    order_configuration := none }

/-- An OPEN limit order used to exercise the reconciler's emission rules. -/
def c5Order : RawOrder :=
  { order_id := some "o5", status := some "OPEN", legacy_status := none,
    client_order_id := none, side := some "SELL", completed_time := none,
    expire_time := none, submitted_time := some "2024-01-01T00:00:00",
    created_time := none, order_placed_time := none, last_fill_time := none,
    average_filled_price := none, product_id := none,
    order_configuration := some (JsonValue.obj
      [("limit_limit_gtc",
        JsonValue.obj
          [("limit_price", JsonValue.str "5"),
           ("base_size", JsonValue.str "2"),
           ("post_only", JsonValue.bool true)])]) }

/-- The open record `c5Order` produces. -/
def c5Open : ProcessedOpenRecord :=
  { order_id := "o5", side := "SELL", limit_price := 5, base_size := 2,
    status := "OPEN", client_order_id := "",
    end_time := some 1704067200000000, product_id := "PID",
    stop_price := none }

/-- The executed record `c5Order` produces. -/
def c5Exec : ProcessedExecutedRecord :=
  { order_id := "o5", ts_submitted := 1704067200000000,
    ts_submitted_inferred := false, ts_filled := none, side := "SELL",
    limit_price := 5, base_size := 2, status := "OPEN", filled_size := none,
    client_order_id := "", end_time := some 1704067200000000,
    product_id := "PID", stop_price := none, post_only := true }

/-! ## Matching-engine lemmas -/

theorem matchLoop_le (side : Side) (price r : ℚ) (q : List Lot) (z : ℚ)
    (hr : r ≤ 0) : matchLoop side price r q z = (z, r, q) := by
  rw [matchLoop.eq_def]
  cases q <;> simp [hr]

theorem matchLoop_nil (side : Side) (price r z : ℚ) :
    matchLoop side price r [] z = (z, r, []) := by
  rw [matchLoop]
  split <;> rfl

theorem matchLoop_cons (side : Side) (price r z : ℚ) (l : Lot)
    (rest : List Lot) (hr : 0 < r) :
    matchLoop side price r (l :: rest) z =
      (if l.size - (if r ≤ l.size then r else l.size) ≤ 0 then
        matchLoop side price (r - (if r ≤ l.size then r else l.size)) rest
          (z + lotProfit side price l.price * (if r ≤ l.size then r else l.size))
      else
        (z + lotProfit side price l.price * (if r ≤ l.size then r else l.size),
          r - (if r ≤ l.size then r else l.size),
          { price := l.price,
            size := l.size - (if r ≤ l.size then r else l.size) } :: rest)) := by
  rw [matchLoop]
  simp [not_le.mpr hr]

theorem matchLoop_pos_rem_empty (side : Side) (price : ℚ) :
    ∀ (q : List Lot) (r z : ℚ), 0 < (matchLoop side price r q z).2.1 →
      (matchLoop side price r q z).2.2 = [] := by
  intro q
  induction q with
  | nil =>
    intro r z _
    rw [matchLoop_nil]
  | cons l rest ih =>
    intro r z h
    rcases le_or_lt r 0 with hr | hr
    · rw [matchLoop_le side price r (l :: rest) z hr] at h
      exact absurd h (by simpa using hr)
    · rw [matchLoop_cons side price r z l rest hr] at h ⊢
      by_cases hsz : l.size - (if r ≤ l.size then r else l.size) ≤ 0
      · rw [if_pos hsz] at h ⊢
        exact ih _ _ h
      · rw [if_neg hsz] at h ⊢
        exfalso
        by_cases hrl : r ≤ l.size
        · rw [if_pos hrl] at h
          simp at h
        · rw [if_neg hrl] at hsz
          simp at hsz

theorem applyTrade_entry (makerFee takerFee : ℚ) (s : MatchState) (t : Trade) :
    ∃ realized, (applyTrade makerFee takerFee s t).2 =
      mkEntry makerFee takerFee t realized := by
  obtain ⟨ts, side, p, sz, po⟩ := t
  cases side <;> exact ⟨_, rfl⟩

theorem applyTrade_preserves_exclusive (makerFee takerFee : ℚ)
    (s : MatchState) (t : Trade)
    (h : s.longLots = [] ∨ s.shortLots = []) :
    ((applyTrade makerFee takerFee s t).1).longLots = [] ∨
    ((applyTrade makerFee takerFee s t).1).shortLots = [] := by
  obtain ⟨ts, side, p, sz, po⟩ := t
  cases side with
  | buy =>
    simp only [applyTrade]
    by_cases hrem : 0 < (matchLoop Side.buy p sz s.shortLots 0).2.1
    · right
      exact matchLoop_pos_rem_empty Side.buy p s.shortLots sz 0 hrem
    · simp only [if_neg hrem]
      rcases h with hl | hs
      · left
        exact hl
      · right
        rw [hs, matchLoop_nil]
  | sell =>
    simp only [applyTrade]
    by_cases hrem : 0 < (matchLoop Side.sell p sz s.longLots 0).2.1
    · left
      exact matchLoop_pos_rem_empty Side.sell p s.longLots sz 0 hrem
    · simp only [if_neg hrem]
      rcases h with hl | hs
      · left
        rw [hl, matchLoop_nil]
      · right
        exact hs

theorem runTrades_preserves_exclusive (makerFee takerFee : ℚ) :
    ∀ (ts : List Trade) (s : MatchState),
      (s.longLots = [] ∨ s.shortLots = []) →
      ((runTrades makerFee takerFee s ts).1.longLots = [] ∨
        (runTrades makerFee takerFee s ts).1.shortLots = []) := by
  intro ts
  induction ts with
  | nil =>
    intro s h
    exact h
  | cons t rest ih =>
    intro s h
    exact ih _ (applyTrade_preserves_exclusive makerFee takerFee s t h)

theorem runTrades_get?_entry (makerFee takerFee : ℚ) :
    ∀ (ts : List Trade) (s : MatchState) (i : Nat) (t : Trade),
      ts.get? i = some t →
      ∃ realized, ((runTrades makerFee takerFee s ts).2).get? i =
        some (mkEntry makerFee takerFee t realized) := by
  intro ts
  induction ts with
  | nil =>
    intro s i t h
    simp at h
  | cons u us ih =>
    intro s i t h
    cases i with
    | zero =>
      rw [List.get?_cons_zero] at h
      have h' : u = t := Option.some.inj h
      subst h'
      obtain ⟨realized, hr⟩ := applyTrade_entry makerFee takerFee s u
      exact ⟨realized, by simpa [runTrades] using hr⟩
    | succ n =>
      rw [List.get?_cons_succ] at h
      obtain ⟨realized, hr⟩ :=
        ih (applyTrade makerFee takerFee s u).1 n t h
      exact ⟨realized, by simpa [runTrades] using hr⟩

/-! ## Claims C1, C7, C8 -/

/-- Claim C1: the FIFO engine closes the oldest opposite-side lot first —
a buy matches the short queue's front lot for `min(remaining, front.size)`,
adds `(front.price − buyPrice) × matched` to realized profit, removes the
lot exactly when its size is exhausted, and appends any unmatched
remainder as a new long lot; and on the spec's example (buys of size 1 at
10, 20, 30 then a sell of 2 at 100) total realized profit is 170 with a
single long lot of size 1 at price 30 left. -/
theorem claim1_fifo_matching :
    (∀ (price r z : ℚ) (l : Lot) (rest : List Lot), 0 < r →
      matchLoop Side.buy price r (l :: rest) z =
        (if l.size - min r l.size ≤ 0 then
          matchLoop Side.buy price (r - min r l.size) rest
            (z + (l.price - price) * min r l.size)
        else
          (z + (l.price - price) * min r l.size, r - min r l.size,
            { price := l.price, size := l.size - min r l.size } :: rest))) ∧
    (∀ (makerFee takerFee : ℚ) (s : MatchState) (t : Trade),
      t.side = Side.buy →
      ((applyTrade makerFee takerFee s t).1).longLots =
        (if 0 < (matchLoop Side.buy t.price t.size s.shortLots 0).2.1 then
          s.longLots ++
            [{ price := t.price,
               size := (matchLoop Side.buy t.price t.size s.shortLots 0).2.1 }]
        else s.longLots) ∧
      ((applyTrade makerFee takerFee s t).1).shortLots =
        (matchLoop Side.buy t.price t.size s.shortLots 0).2.2) ∧
    ((runTrades 0 0 { longLots := [], shortLots := [] } c1Trades).1 =
        { longLots := [{ price := 30, size := 1 }], shortLots := [] } ∧
      ((build_entries c1Trades 0 0).map (fun e => e.realized_profit)).sum =
        170) := by
  refine ⟨?_, ?_, ?_, ?_⟩
  · intro price r z l rest hr
    rw [matchLoop_cons Side.buy price r z l rest hr]
    rw [min_def]
    rfl
  · intro makerFee takerFee s t ht
    obtain ⟨ts, side, p, sz, po⟩ := t
    cases ht
    exact ⟨rfl, rfl⟩
  · norm_num [runTrades, applyTrade, matchLoop, mkEntry, lotProfit, c1Trades]
  · norm_num [build_entries, runTrades, applyTrade, matchLoop, mkEntry,
      lotProfit, c1Trades]

/-- Witness for C1: a buy of size 1 at price 100 against a front short lot
of size 3 at price 10 matches 1 unit, realizes −90, and leaves the reduced
front lot. -/
theorem claim1_fifo_matching_witness :
    matchLoop Side.buy 100 1 [{ price := 10, size := 3 }] 0 =
      (-90, 0, [{ price := 10, size := 2 }]) ∧
    (applyTrade 0 0 { longLots := [], shortLots := [] }
        { timestamp := 0, side := Side.buy, price := 7, size := 2,
          post_only := false }).1.longLots = [{ price := 7, size := 2 }] := by
  constructor
  · have h := claim1_fifo_matching.1 100 1 0 { price := 10, size := 3 } []
      (by norm_num)
    rw [h]
    norm_num [matchLoop_nil, lotProfit]
  · have h := (claim1_fifo_matching.2.1 0 0
      { longLots := [], shortLots := [] }
      { timestamp := 0, side := Side.buy, price := 7, size := 2,
        post_only := false } rfl).1
    rw [h]
    norm_num [matchLoop_nil]

/-- Claim C8 (implicit invariant): after each processed trade, at most one
of the two inventory queues is nonempty. -/
theorem claim8_queues_mutually_exclusive (makerFee takerFee : ℚ)
    (trades : List Trade) (n : Nat) :
    (runTrades makerFee takerFee { longLots := [], shortLots := [] }
        (trades.take n)).1.longLots = [] ∨
    (runTrades makerFee takerFee { longLots := [], shortLots := [] }
        (trades.take n)).1.shortLots = [] :=
  runTrades_preserves_exclusive makerFee takerFee (trades.take n)
    { longLots := [], shortLots := [] } (Or.inl rfl)

/-- Claim C7: each surviving trade's entry carries the notional on exactly
the maker side when postOnly (fee at the maker rate) and exactly the taker
side otherwise (fee at the taker rate); with positive price and size
exactly one of the two volumes is nonzero. -/
theorem claim7_entry_volumes (trades : List Trade) (makerFee takerFee : ℚ)
    (i : Nat) (t : Trade) (e : Entry)
    (ht : trades.get? i = some t)
    (he : (build_entries trades makerFee takerFee).get? i = some e)
    (hsz : 0 < t.size) (hp : 0 < t.price) :
    (t.post_only = true →
      e.maker_volume = t.price * t.size ∧ e.taker_volume = 0 ∧
        e.fee = t.price * t.size * makerFee) ∧
    (t.post_only = false →
      e.taker_volume = t.price * t.size ∧ e.maker_volume = 0 ∧
        e.fee = t.price * t.size * takerFee) ∧
    ((e.maker_volume ≠ 0 ∧ e.taker_volume = 0) ∨
      (e.taker_volume ≠ 0 ∧ e.maker_volume = 0)) := by
  obtain ⟨realized, hr⟩ := runTrades_get?_entry makerFee takerFee trades
    { longLots := [], shortLots := [] } i t ht
  rw [build_entries] at he
  rw [hr] at he
  obtain rfl : mkEntry makerFee takerFee t realized = e := Option.some.inj he
  have hnot : t.price * t.size ≠ 0 := ne_of_gt (mul_pos hp hsz)
  cases hpo : t.post_only with
  | true =>
    refine ⟨fun _ => ?_, fun hcontra => by simp [hpo] at hcontra, ?_⟩
    · simp [mkEntry, hpo]
    · left
      simp [mkEntry, hpo, hnot]
  | false =>
    refine ⟨fun hcontra => by simp [hpo] at hcontra, fun _ => ?_, ?_⟩
    · simp [mkEntry, hpo]
    · right
      simp [mkEntry, hpo, hnot]

/-- Witness for C7: a postOnly buy of size 3 at price 2 yields maker
volume 6, taker volume 0, fee 3 at maker rate 1/2. -/
theorem claim7_entry_volumes_witness :
    (build_entries
        [{ timestamp := 0, side := Side.buy, price := 2, size := 3,
            post_only := true }] (1 / 2) (1 / 4)).get? 0 =
      some { timestamp := 0, realized_profit := 0, maker_volume := 6,
              taker_volume := 0, fee := 3 } ∧
    ((6 : ℚ) = 2 * 3 ∧ (0 : ℚ) = 0 ∧ (3 : ℚ) = 2 * 3 * (1 / 2)) := by
  have hget : (build_entries
      [{ timestamp := 0, side := Side.buy, price := 2, size := 3,
          post_only := true }] (1 / 2) (1 / 4)).get? 0 =
      some { timestamp := 0, realized_profit := 0, maker_volume := 6,
              taker_volume := 0, fee := 3 } := by
    norm_num [build_entries, runTrades, applyTrade, matchLoop, mkEntry]
  have h := claim7_entry_volumes
    [{ timestamp := 0, side := Side.buy, price := 2, size := 3,
        post_only := true }] (1 / 2) (1 / 4) 0 _ _ rfl hget
    (by norm_num) (by norm_num)
  have h1 := h.1 rfl
  exact ⟨hget, h1.1, h1.2.1, h1.2.2⟩

/-! ## Claims C6, C10 -/

/-- Claim C6: the window start is `cutoff` for the all-time spec and
`max(cutoff, now − max(deltaSeconds, 0))` otherwise, never preceding
`cutoff`; a spec whose `deltaSeconds` exceeds the `now − cutoff` span
yields the same start — and the same metrics on any entry list — as the
all-time spec. -/
theorem claim6_interval_start (now cutoff : Int) (delta : Option Int) :
    cutoff ≤ interval_start now delta cutoff ∧
    interval_start now none cutoff = cutoff ∧
    (∀ s : Int, interval_start now (some s) cutoff =
      max cutoff (now - max s 0 * 1000000)) ∧
    (∀ s : Int, now - cutoff < s * 1000000 →
      interval_start now (some s) cutoff = interval_start now none cutoff ∧
      ∀ entries : List Entry,
        summarise_interval entries (interval_start now (some s) cutoff) =
          summarise_interval entries (interval_start now none cutoff)) := by
  refine ⟨?_, rfl, ?_, ?_⟩
  · cases delta with
    | none => exact le_refl cutoff
    | some s =>
      show cutoff ≤ (if now - max s 0 * 1000000 < cutoff then cutoff
        else now - max s 0 * 1000000)
      split
      · exact le_refl cutoff
      · next hge => exact le_of_not_lt hge
  · intro s
    show (if now - max s 0 * 1000000 < cutoff then cutoff
      else now - max s 0 * 1000000) = max cutoff (now - max s 0 * 1000000)
    split
    · next hlt => rw [max_eq_left (le_of_lt hlt)]
    · next hge => rw [max_eq_right (le_of_not_lt hge)]
  · intro s hs
    have heq : interval_start now (some s) cutoff = cutoff := by
      show (if now - max s 0 * 1000000 < cutoff then cutoff
        else now - max s 0 * 1000000) = cutoff
      rcases le_or_lt 0 s with h0 | h0
      · rw [if_pos]
        rw [max_eq_left h0]
        linarith
      · rw [if_pos]
        rw [max_eq_right (le_of_lt h0)]
        have : s * 1000000 < 0 :=
          mul_neg_of_neg_of_pos h0 (by norm_num)
        linarith
    exact ⟨heq, fun entries => by rw [heq]; rfl⟩

/-- Witness for C6: with `now = 5 s`, `cutoff = 0` and a 10-second window,
the start clamps to the cutoff, exactly as for the all-time spec. -/
theorem claim6_interval_start_witness :
    interval_start 5000000 (some 10) 0 = interval_start 5000000 none 0 ∧
    summarise_interval [] (interval_start 5000000 (some 10) 0) =
      summarise_interval [] (interval_start 5000000 none 0) := by
  have h := (claim6_interval_start 5000000 0 (some 10)).2.2.2 10 (by norm_num)
  exact ⟨h.1, h.2 []⟩

/-- Claim C10: the trade-summary path is deterministic — it never reads
the ambient clock (nor any other ambient state of the model), so two calls
on equal inputs under different clocks coincide. -/
theorem claim10_deterministic (clock1 clock2 : Int) (trades : List TradeInput)
    (intervals : List IntervalSpec) (now_us cutoff_us : Int)
    (mfr tfr : String) :
    summarise_trades clock1 trades intervals now_us cutoff_us mfr tfr =
      summarise_trades clock2 trades intervals now_us cutoff_us mfr tfr := rfl

/-! ## Claim C9 -/

theorem getLast?_map_eq {α β : Type} (f : α → β) :
    ∀ l : List α, (l.map f).getLast? = (l.getLast?).map f := by
  intro l
  induction l using List.reverseRecOn with
  | nil => rfl
  | append_singleton tl a _ =>
    rw [List.map_append, List.getLast?_concat, List.map_singleton,
      List.getLast?_concat]
    rfl

theorem intervalFold_results (e : List Entry) (n c : Int) :
    ∀ (l : List IntervalSpec) (acc : List IntervalResult × ℚ × ℚ),
      (List.foldl (intervalStep e n c) acc l).1 =
        acc.1 ++ l.map (fun spec =>
          { key := spec.key, label := spec.label,
            metrics :=
              summarise_interval e (interval_start n spec.delta_seconds c) :
            IntervalResult}) := by
  intro l
  induction l with
  | nil =>
    intro acc
    simp
  | cons spec tl ih =>
    intro acc
    rw [List.foldl_cons, ih]
    simp [intervalStep]

theorem intervalFold_totals (e : List Entry) (n c : Int) :
    ∀ (l : List IntervalSpec) (acc : List IntervalResult × ℚ × ℚ),
      (List.foldl (intervalStep e n c) acc l).2 =
        (match (l.filter (fun s => decide (s.key = "all"))).getLast? with
          | none => acc.2
          | some spec =>
            ((summarise_interval e
                (interval_start n spec.delta_seconds c)).profit_before_fees,
              (summarise_interval e
                (interval_start n spec.delta_seconds c)).profit_after_fees)) := by
  intro l
  induction l using List.reverseRecOn with
  | nil =>
    intro acc
    simp
  | append_singleton tl spec ih =>
    intro acc
    rw [List.foldl_append, List.foldl_cons, List.foldl_nil,
      List.filter_append]
    by_cases hk : spec.key = "all"
    · rw [show List.filter (fun s => decide (s.key = "all")) [spec] = [spec]
        from by simp [hk]]
      rw [List.getLast?_append_of_ne_nil _ (by simp)]
      simp [intervalStep, hk]
    · rw [show List.filter (fun s => decide (s.key = "all")) [spec] = []
        from by simp [hk]]
      rw [List.append_nil]
      rw [show (intervalStep e n c (List.foldl (intervalStep e n c) acc tl)
          spec).2 = (List.foldl (intervalStep e n c) acc tl).2
        from by simp [intervalStep, hk]]
      exact ih acc

/-- Claim C9 (implicit): the grand totals of a successful summary call are
zero when no interval spec has key `"all"`, and otherwise equal the
metrics of the last `"all"` interval; interval results mirror the specs
key-for-key in order. -/
theorem claim9_all_interval_totals (wallClock : Int)
    (trades : List TradeInput) (intervals : List IntervalSpec)
    (now_us cutoff_us : Int) (mfr tfr : String) (summary : Summary)
    (h : summarise_trades wallClock trades intervals now_us cutoff_us mfr tfr
      = Except.ok summary) :
    summary.intervals.map (fun r => r.key) =
        intervals.map (fun s => s.key) ∧
    ((∀ s ∈ intervals, s.key ≠ "all") →
      summary.total_profit_before_fees = 0 ∧
        summary.total_profit_after_fees = 0) ∧
    (∀ r, (summary.intervals.filter
          (fun x => decide (x.key = "all"))).getLast? = some r →
      summary.total_profit_before_fees = r.metrics.profit_before_fees ∧
        summary.total_profit_after_fees = r.metrics.profit_after_fees) := by
  rw [summarise_trades] at h
  cases hm : parse_decimal mfr "maker_fee_rate" with
  | error e => simp [hm] at h
  | ok maker_fee =>
  cases htk : parse_decimal tfr "taker_fee_rate" with
  | error e => simp [hm, htk] at h
  | ok taker_fee =>
  cases hn : timestamp_us_to_datetime now_us with
  | error e => simp [hm, htk, hn] at h
  | ok now =>
  cases hc : timestamp_us_to_datetime cutoff_us with
  | error e => simp [hm, htk, hn, hc] at h
  | ok cutoff =>
  simp only [hm, htk, hn, hc] at h
  cases hp : parseTrades cutoff trades with
  | error e => simp [hp] at h
  | ok parsed =>
  simp only [hp, Except.ok.injEq] at h
  subst h
  set entries :=
    build_entries (sortTradesByTimestamp parsed) maker_fee taker_fee with he
  set f := fun spec : IntervalSpec =>
    ({ key := spec.key, label := spec.label,
        metrics :=
          summarise_interval entries
            (interval_start now spec.delta_seconds cutoff) } :
      IntervalResult) with hf
  have hres : (List.foldl (intervalStep entries now cutoff) ([], 0, 0)
      intervals).1 = intervals.map f := by
    rw [intervalFold_results]
    simp
  have htot := intervalFold_totals entries now cutoff intervals ([], 0, 0)
  refine ⟨?_, ?_, ?_⟩
  · simp only [hres, List.map_map]
    rfl
  · intro hnone
    have hfil : intervals.filter (fun s => decide (s.key = "all")) = [] :=
      List.filter_eq_nil_iff.mpr (fun a ha => by simpa using hnone a ha)
    rw [hfil] at htot
    simp only [List.getLast?] at htot
    exact ⟨congrArg Prod.fst htot, congrArg Prod.snd htot⟩
  · intro r hr
    simp only [hres] at hr
    rw [List.filter_map] at hr
    have hcomp : ((fun x : IntervalResult => decide (x.key = "all")) ∘ f) =
        (fun s : IntervalSpec => decide (s.key = "all")) := by
      funext spec
      simp [hf]
    rw [hcomp] at hr
    rw [getLast?_map_eq] at hr
    cases hlast : (intervals.filter
        (fun s => decide (s.key = "all"))).getLast? with
    | none => rw [hlast] at hr; exact absurd hr (by simp)
    | some spec =>
      rw [hlast] at hr htot
      simp only [Option.map_some'] at hr
      have hrf : f spec = r := Option.some.inj hr
      subst hrf
      exact ⟨congrArg Prod.fst htot, congrArg Prod.snd htot⟩

/-- Witness for C9: a call with the single all-time interval; its totals
are the `"all"` interval's metrics. -/
theorem claim9_all_interval_totals_witness :
    summarise_trades 0 [] [{ key := "all", label := "All", delta_seconds := none }]
        0 0 "0" "0" =
      Except.ok
        { intervals := [{ key := "all", label := "All",
                          metrics := { profit_before_fees := 0, maker_volume := 0,
                                       taker_volume := 0, fee_total := 0,
                                       profit_after_fees := 0 } }],
          total_profit_before_fees := 0, total_profit_after_fees := 0 } ∧
    ((0 : ℚ) = 0 ∧ (0 : ℚ) = 0) := by
  have heval : summarise_trades 0 []
      [{ key := "all", label := "All", delta_seconds := none }] 0 0 "0" "0" =
      Except.ok
        { intervals := [{ key := "all", label := "All",
                          metrics := { profit_before_fees := 0, maker_volume := 0,
                                       taker_volume := 0, fee_total := 0,
                                       profit_after_fees := 0 } }],
          total_profit_before_fees := 0, total_profit_after_fees := 0 } := by
    norm_num +decide [summarise_trades, parseTrades, parse_decimal,
      decimalFromString, decimalFromChars, decimalDigits, spanP,
      timestamp_us_to_datetime, naiveDateTimeMinSecs, naiveDateTimeMaxSecs,
      sortTradesByTimestamp, build_entries, runTrades, intervalStep,
      interval_start, summarise_interval]
  have h := claim9_all_interval_totals 0 []
    [{ key := "all", label := "All", delta_seconds := none }] 0 0 "0" "0" _
    heval
  refine ⟨heval, ?_⟩
  have h3 := h.2.2 { key := "all", label := "All",
                     metrics := { profit_before_fees := 0, maker_volume := 0,
                                  taker_volume := 0, fee_total := 0,
                                  profit_after_fees := 0 } }
    (by decide)
  exact ⟨h3.1, h3.2⟩

/-! ## Claim C4 -/

theorem resolve_submitted_time_eq (wallClock : Int) (order : RawOrder)
    (fills : Option (List FillData)) (completed : Option Int) :
    resolve_submitted_time wallClock order fills completed =
      (match firstCandidateTime order with
        | some dt => (dt, false)
        | none =>
          match fills with
          | some fills_vec =>
            match min_datetime (fills_vec.map (fun f => f.trade_time)) with
            | some min_dt => (min_dt, false)
            | none => submittedFallback wallClock completed
          | none => submittedFallback wallClock completed) := rfl

/-- Claim C4: submitted-time resolution tries the four candidate text
fields in order, then the earliest fill trade time, then the completed
time, then the wall clock; only the wall-clock fallback is flagged
inferred, and when the four fields are absent but a fill trade time
exists, the result is the earliest fill trade time, not inferred. -/
theorem claim4_submitted_time_precedence (wallClock : Int)
    (order : RawOrder) (fills : Option (List FillData))
    (completed : Option Int) :
    (∀ dt, firstCandidateTime order = some dt →
      resolve_submitted_time wallClock order fills completed = (dt, false)) ∧
    (order.submitted_time = none → order.created_time = none →
      order.order_placed_time = none → order.last_fill_time = none →
      ∀ (fv : List FillData) (m : Int), fills = some fv →
        min_datetime (fv.map (fun f => f.trade_time)) = some m →
        resolve_submitted_time wallClock order fills completed =
          (m, false)) ∧
    (firstCandidateTime order = none → fillsMinTime fills = none →
      ∀ c0, completed = some c0 →
        resolve_submitted_time wallClock order fills completed =
          (c0, false)) ∧
    (firstCandidateTime order = none → fillsMinTime fills = none →
      completed = none →
      resolve_submitted_time wallClock order fills completed =
        (wallClock, true)) ∧
    ((resolve_submitted_time wallClock order fills completed).2 = true ↔
      (firstCandidateTime order = none ∧ fillsMinTime fills = none ∧
        completed = none)) := by
  have fall3 : firstCandidateTime order = none → fillsMinTime fills = none →
      resolve_submitted_time wallClock order fills completed =
        submittedFallback wallClock completed := by
    intro hfc hfm
    rw [resolve_submitted_time_eq, hfc]
    cases hf : fills with
    | none => rfl
    | some fv =>
      have hmd : min_datetime (fv.map (fun f => f.trade_time)) = none := by
        rw [hf] at hfm
        simpa [fillsMinTime] using hfm
      show (match min_datetime (fv.map (fun f => f.trade_time)) with
            | some min_dt => (min_dt, false)
            | none => submittedFallback wallClock completed) =
          submittedFallback wallClock completed
      rw [hmd]
  refine ⟨?_, ?_, ?_, ?_, ?_⟩
  · intro dt hdt
    rw [resolve_submitted_time_eq, hdt]
  · intro h1 h2 h3 h4 fv m hfv hm
    have hfc : firstCandidateTime order = none := by
      simp [firstCandidateTime, h1, h2, h3, h4]
    subst hfv
    rw [resolve_submitted_time_eq, hfc]
    show (match min_datetime (fv.map (fun f => f.trade_time)) with
          | some min_dt => (min_dt, false)
          | none => submittedFallback wallClock completed) = (m, false)
    rw [hm]
  · intro hfc hfm c0 hc
    rw [fall3 hfc hfm, hc]
    rfl
  · intro hfc hfm hc
    rw [fall3 hfc hfm, hc]
    rfl
  · constructor
    · intro htrue
      have hfc : firstCandidateTime order = none := by
        cases hfc0 : firstCandidateTime order with
        | none => rfl
        | some dt => simp [resolve_submitted_time_eq, hfc0] at htrue
      refine ⟨hfc, ?_, ?_⟩
      · cases hf : fills with
        | none => simp [fillsMinTime]
        | some fv =>
          cases hmd : min_datetime (fv.map (fun f => f.trade_time)) with
          | none => simp [fillsMinTime, hmd]
          | some m =>
            rw [hf] at htrue
            simp [resolve_submitted_time_eq, hfc, hmd] at htrue
      · cases hcm : completed with
        | none => rfl
        | some c0 =>
          rw [hcm] at htrue
          cases hf : fills with
          | none =>
            rw [hf] at htrue
            simp [resolve_submitted_time_eq, hfc, submittedFallback] at htrue
          | some fv =>
            rw [hf] at htrue
            cases hmd : min_datetime (fv.map (fun f => f.trade_time)) with
            | some m =>
              simp [resolve_submitted_time_eq, hfc, hmd] at htrue
            | none =>
              simp [resolve_submitted_time_eq, hfc, hmd,
                submittedFallback] at htrue
    · rintro ⟨hfc, hfm, hcm⟩
      rw [fall3 hfc hfm, hcm]
      rfl

/-- Witness for C4: with all four candidate fields absent, fills with
trade times 5 and 3 resolve to the earliest (3) with inferred = false;
with nothing at all available the wall clock (99) is used, inferred. -/
theorem claim4_submitted_time_precedence_witness :
    resolve_submitted_time 99 c4Order
        (some [{ size := 1, price := 1, trade_time := some 5 },
          { size := 1, price := 1, trade_time := some 3 }]) none =
      (3, false) ∧
    resolve_submitted_time 99 c4Order none none = (99, true) := by
  have h := claim4_submitted_time_precedence 99 c4Order
    (some [{ size := 1, price := 1, trade_time := some 5 },
      { size := 1, price := 1, trade_time := some 3 }]) none
  have h2 := claim4_submitted_time_precedence 99 c4Order none none
  exact ⟨h.2.1 rfl rfl rfl rfl _ 3 rfl (by decide),
    h2.2.2.2.1 (by decide) (by decide) rfl⟩

/-! ## Claim C3 -/

theorem parseTrades_error_of_bad_side (cutoff : Int) :
    ∀ (ts : List TradeInput) (t : TradeInput), t ∈ ts →
      (∃ e, Side.try_from t.side = Except.error e) →
      (∃ p, decimalFromString t.price = some p ∧ 0 < p) →
      (∃ z, decimalFromString t.size = some z ∧ 0 < z) →
      (∃ dt, timestamp_us_to_datetime t.timestamp_us = Except.ok dt ∧
        ¬ dt < cutoff) →
      ∃ e, parseTrades cutoff ts = Except.error e := by
  intro ts
  induction ts with
  | nil =>
    intro t ht
    simp at ht
  | cons u us ih =>
    intro t ht hside hp hz hdt
    rcases List.mem_cons.mp ht with rfl | hmem
    · obtain ⟨p, hp1, hp2⟩ := hp
      obtain ⟨z, hz1, hz2⟩ := hz
      obtain ⟨dt, hdt1, hdt2⟩ := hdt
      obtain ⟨e, hside1⟩ := hside
      have hcond : ¬(z ≤ 0 ∨ p ≤ 0) := by
        push_neg
        exact ⟨hz2, hp2⟩
      refine ⟨e, ?_⟩
      simp only [parseTrades, parse_decimal, hp1, hz1, if_neg hcond, hdt1,
        if_neg hdt2, hside1]
    · obtain ⟨e0, he0⟩ := ih t hmem hside hp hz hdt
      cases hup : parse_decimal u.price "price" with
      | error e1 => exact ⟨e1, by simp only [parseTrades, hup]⟩
      | ok pu =>
      cases huz : parse_decimal u.size "size" with
      | error e1 => exact ⟨e1, by simp only [parseTrades, hup, huz]⟩
      | ok zu =>
      by_cases hskip : zu ≤ 0 ∨ pu ≤ 0
      · exact ⟨e0, by
          simp only [parseTrades, hup, huz, if_pos hskip]
          exact he0⟩
      · cases hut : timestamp_us_to_datetime u.timestamp_us with
        | error e1 =>
          exact ⟨e1, by simp only [parseTrades, hup, huz, if_neg hskip, hut]⟩
        | ok du =>
        by_cases hcut : du < cutoff
        · exact ⟨e0, by
            simp only [parseTrades, hup, huz, if_neg hskip, hut, if_pos hcut]
            exact he0⟩
        · cases hus : Side.try_from u.side with
          | error e1 =>
            exact ⟨e1, by simp only [parseTrades, hup, huz, if_neg hskip,
              hut, if_neg hcut, hus]⟩
          | ok su =>
            exact ⟨e0, by simp only [parseTrades, hup, huz, if_neg hskip,
              hut, if_neg hcut, hus, he0]⟩

/-- Counterexample to C3 as stated: a batch containing a trade with side
text `"HOLD"` — unparseable — whose size is zero succeeds, because the
positivity filter drops the trade before the side is ever parsed; C3's
"for every such trade regardless of its price, size, or timestamp" is
therefore false. -/
theorem claim3_side_error_counterexample :
    summarise_trades 0
        [{ timestamp_us := 0, side := "HOLD", price := "1", size := "0",
            post_only := false }] [] 0 0 "0" "0" =
      Except.ok { intervals := [], total_profit_before_fees := 0,
                  total_profit_after_fees := 0 } ∧
    Side.try_from "HOLD" = Except.error "unknown side: HOLD" := by
  constructor
  · norm_num +decide [summarise_trades, parseTrades, parse_decimal,
      decimalFromString, decimalFromChars, decimalDigits, spanP,
      timestamp_us_to_datetime, naiveDateTimeMinSecs, naiveDateTimeMaxSecs,
      sortTradesByTimestamp, build_entries, runTrades]
  · rfl

/-- Amended C3: a trade whose side text is neither `BUY` nor `SELL`
(case-insensitively) makes the whole call fail — provided the trade
survives the earlier filters: its price and size parse as positive
decimals and its timestamp is representable and not before the cutoff.
(Trades dropped by those filters never have their side examined.) -/
theorem claim3_side_error_amended (wallClock : Int)
    (trades : List TradeInput) (intervals : List IntervalSpec)
    (now_us cutoff_us : Int) (mfr tfr : String) (t : TradeInput)
    (ht : t ∈ trades)
    (hside : ∃ e, Side.try_from t.side = Except.error e)
    (hp : ∃ p, decimalFromString t.price = some p ∧ 0 < p)
    (hz : ∃ z, decimalFromString t.size = some z ∧ 0 < z)
    (hdt : ∃ dt, timestamp_us_to_datetime t.timestamp_us = Except.ok dt ∧
      ∀ c, timestamp_us_to_datetime cutoff_us = Except.ok c → ¬ dt < c) :
    ∃ msg, summarise_trades wallClock trades intervals now_us cutoff_us
      mfr tfr = Except.error msg := by
  cases hm : parse_decimal mfr "maker_fee_rate" with
  | error e => exact ⟨e, by simp only [summarise_trades, hm]⟩
  | ok maker_fee =>
  cases htk : parse_decimal tfr "taker_fee_rate" with
  | error e => exact ⟨e, by simp only [summarise_trades, hm, htk]⟩
  | ok taker_fee =>
  cases hn : timestamp_us_to_datetime now_us with
  | error e => exact ⟨e, by simp only [summarise_trades, hm, htk, hn]⟩
  | ok now =>
  cases hc : timestamp_us_to_datetime cutoff_us with
  | error e => exact ⟨e, by simp only [summarise_trades, hm, htk, hn, hc]⟩
  | ok cutoff =>
  obtain ⟨dt, hdt1, hdt2⟩ := hdt
  obtain ⟨e0, he0⟩ := parseTrades_error_of_bad_side cutoff trades t ht hside
    hp hz ⟨dt, hdt1, hdt2 cutoff hc⟩
  exact ⟨e0, by simp only [summarise_trades, hm, htk, hn, hc, he0]⟩

/-- Witness for the amended C3: the same `"HOLD"` trade with a positive
size does abort the whole call. -/
theorem claim3_side_error_amended_witness :
    summarise_trades 0
        [{ timestamp_us := 0, side := "HOLD", price := "1", size := "1",
            post_only := false }] [] 0 0 "0" "0" =
      Except.error "unknown side: HOLD" := by
  obtain ⟨msg, hmsg⟩ := claim3_side_error_amended 0
    [{ timestamp_us := 0, side := "HOLD", price := "1", size := "1",
        post_only := false }] [] 0 0 "0" "0"
    { timestamp_us := 0, side := "HOLD", price := "1", size := "1",
      post_only := false }
    (by simp)
    ⟨"unknown side: HOLD", rfl⟩
    ⟨1, by norm_num +decide [decimalFromString, decimalFromChars,
      decimalDigits, spanP], by norm_num⟩
    ⟨1, by norm_num +decide [decimalFromString, decimalFromChars,
      decimalDigits, spanP], by norm_num⟩
    ⟨0, rfl, by
      intro c hcok
      have h0 : timestamp_us_to_datetime 0 = Except.ok (0 : Int) := rfl
      rw [h0] at hcok
      have hc0 : (0 : Int) = c := Except.ok.inj hcok
      omega⟩
  norm_num +decide [summarise_trades, parseTrades, parse_decimal,
    decimalFromString, decimalFromChars, decimalDigits, spanP,
    timestamp_us_to_datetime, naiveDateTimeMinSecs, naiveDateTimeMaxSecs,
    Side.try_from, toAsciiUppercase]

/-! ## Reconciler lemmas -/

theorem extract_order_config_ne_unknown (value : Option JsonValue)
    (t : OrderConfigType) (c : List (String × JsonValue))
    (h : extract_order_config value = (t, some c)) :
    t ≠ OrderConfigType.unknown := by
  unfold extract_order_config at h
  cases hv : value.bind JsonValue.asObject with
  | none =>
    rw [hv] at h
    injection h with h1 h2
    cases h2
  | some container =>
    rw [hv] at h
    repeat' split at h
    all_goals injection h with h1 h2
    all_goals first
      | (subst h1; decide)
      | cases h2

theorem shapeResolve_ne_none (ct : OrderConfigType)
    (config : List (String × JsonValue)) (fv : Option (List FillData))
    (avg : Option ℚ) (completed : Option Int) (submitted : Int)
    (expire : Option Int) (hct : ct ≠ OrderConfigType.unknown) :
    shapeResolve ct config fv avg completed submitted expire ≠ none := by
  cases ct <;> simp [shapeResolve] at hct ⊢

/-- Everything the reconciler's per-order step determines once an order
has a non-empty id: its executed record's status and completed time, and
the open record being exactly the status-`OPEN` projection. -/
theorem processOrder_some_fields (wallClock : Int) (fills : List RawFill)
    (pid : String) (order : RawOrder) (oid : String)
    (popen : Option ProcessedOpenRecord) (pexec : ProcessedExecutedRecord)
    (hid : nonEmptyString order.order_id = some oid)
    (happ : processOrder wallClock fills pid order = some (popen, pexec)) :
    pexec.status = orderStatus order ∧
    pexec.ts_filled =
      resolveCompletedTime order (orderStatus order)
        (fillsLookup fills oid) ∧
    popen =
      (if orderStatus order = "OPEN" then
        some { order_id := oid, side := pexec.side,
               limit_price := pexec.limit_price,
               base_size := pexec.base_size,
               status := orderStatus order,
               client_order_id := pexec.client_order_id,
               end_time := pexec.end_time,
               product_id := pexec.product_id,
               stop_price := pexec.stop_price }
      else none) := by
  simp only [processOrder, hid] at happ
  rcases hcfg : extract_order_config order.order_configuration with
    ⟨ct, cfgopt⟩
  cases cfgopt with
  | none =>
    simp only [hcfg] at happ
    simp at happ
  | some config =>
    simp only [hcfg] at happ
    split at happ
    · simp at happ
    · next shape heq =>
      have hpair := Option.some.inj happ
      injection hpair with h1 h2
      subst h1
      subst h2
      exact ⟨rfl, rfl, rfl⟩

theorem processOrder_isSome_iff (wallClock : Int) (fills : List RawFill)
    (pid : String) (o : RawOrder) :
    processOrder wallClock fills pid o ≠ none ↔
      (nonEmptyString o.order_id ≠ none ∧
        (extract_order_config o.order_configuration).2 ≠ none) := by
  constructor
  · intro hne
    cases hid : nonEmptyString o.order_id with
    | none => exact absurd (by simp [processOrder, hid]) hne
    | some oid =>
      rcases hcfg : extract_order_config o.order_configuration with
        ⟨ct, cfgopt⟩
      cases cfgopt with
      | none => exact absurd (by simp [processOrder, hid, hcfg]) hne
      | some config => exact ⟨by simp [hid], by simp [hcfg]⟩
  · rintro ⟨hid, hcfg⟩
    cases hid' : nonEmptyString o.order_id with
    | none => exact absurd hid' hid
    | some oid =>
      rcases hcfg0 : extract_order_config o.order_configuration with
        ⟨ct, cfgopt⟩
      cases cfgopt with
      | none =>
        rw [hcfg0] at hcfg
        simp at hcfg
      | some config =>
        have hct := extract_order_config_ne_unknown
          o.order_configuration ct config hcfg0
        simp only [processOrder, hid', hcfg0]
        split
        · next heq => exact absurd heq (shapeResolve_ne_none _ _ _ _ _ _ _ hct)
        · simp

theorem poi_exec_records (wallClock : Int) (fills : List RawFill)
    (pid : String) :
    ∀ orders : List RawOrder,
      (process_orders_internal wallClock orders fills pid).2 =
        orders.filterMap
          (fun o => (processOrder wallClock fills pid o).map (fun r => r.2)) := by
  intro orders
  induction orders with
  | nil => rfl
  | cons o rest ih =>
    simp only [process_orders_internal, List.filterMap_cons]
    cases hpo : processOrder wallClock fills pid o with
    | none => simpa using ih
    | some pr =>
      obtain ⟨openOpt, exec⟩ := pr
      cases openOpt <;> simpa using ih

theorem poi_open_records (wallClock : Int) (fills : List RawFill)
    (pid : String) :
    ∀ orders : List RawOrder,
      (process_orders_internal wallClock orders fills pid).1 =
        orders.filterMap
          (fun o => (processOrder wallClock fills pid o).bind (fun r => r.1)) := by
  intro orders
  induction orders with
  | nil => rfl
  | cons o rest ih =>
    simp only [process_orders_internal, List.filterMap_cons]
    cases hpo : processOrder wallClock fills pid o with
    | none => simpa using ih
    | some pr =>
      obtain ⟨openOpt, exec⟩ := pr
      cases openOpt <;> simpa using ih

/-! ## Claim C5 -/

/-- Claim C5: per classifiable order with a non-empty id exactly one
executed record is emitted; an open record is emitted additionally exactly
when the resolved status is `OPEN`; open records always carry status
`OPEN`. -/
theorem claim5_emission (wallClock : Int) (orders : List RawOrder)
    (fills : List RawFill) (pid : String) :
    (process_orders_internal wallClock orders fills pid).2 =
        orders.filterMap
          (fun o => (processOrder wallClock fills pid o).map (fun r => r.2)) ∧
    (process_orders_internal wallClock orders fills pid).1 =
        orders.filterMap
          (fun o => (processOrder wallClock fills pid o).bind (fun r => r.1)) ∧
    (∀ o, processOrder wallClock fills pid o ≠ none ↔
      (nonEmptyString o.order_id ≠ none ∧
        (extract_order_config o.order_configuration).2 ≠ none)) ∧
    (∀ o popen pexec,
      processOrder wallClock fills pid o = some (popen, pexec) →
      ((pexec.status = "OPEN" ↔ popen ≠ none) ∧
        ∀ r, popen = some r → r.status = "OPEN")) := by
  refine ⟨poi_exec_records wallClock fills pid orders,
    poi_open_records wallClock fills pid orders,
    processOrder_isSome_iff wallClock fills pid, ?_⟩
  intro o popen pexec happ
  cases hid : nonEmptyString o.order_id with
  | none =>
    rw [show processOrder wallClock fills pid o = none
      from by simp [processOrder, hid]] at happ
    cases happ
  | some oid =>
    obtain ⟨hstatus, _, hopen⟩ :=
      processOrder_some_fields wallClock fills pid o oid popen pexec hid happ
    by_cases hst : orderStatus o = "OPEN"
    · rw [hopen, if_pos hst]
      refine ⟨⟨fun _ => by simp, fun _ => by rw [hstatus, hst]⟩, ?_⟩
      intro r hr
      have := Option.some.inj hr
      rw [← this, hst]
    · rw [hopen, if_neg hst]
      refine ⟨⟨fun hst' => ?_, fun hne => absurd rfl hne⟩, ?_⟩
      · rw [hstatus] at hst'
        exact absurd hst' hst
      · intro r hr
        cases hr

/-- Witness for C5: an OPEN limit order appears in both outputs; the open
record carries status OPEN. -/
theorem claim5_emission_witness :
    processOrder 0 [] "PID" c5Order ≠ none ∧
    processOrder 0 [] "PID" c5Order = some (some c5Open, c5Exec) ∧
    c5Open.status = "OPEN" := by
  have heval : processOrder 0 [] "PID" c5Order =
      some (some c5Open, c5Exec) := by
    norm_num +decide [processOrder, nonEmptyString, orderStatus,
      toAsciiUppercase, extract_order_config, configCandidate, objGet,
      JsonValue.asObject, fillsLookup, collect_fills, validFillData,
      decimal_from_value, option_to_string, value_to_string, strTrim,
      trimChars, spanP, decimalFromString, decimalFromChars, decimalDigits,
      resolveCompletedTime, parse_datetime_text, parseRfc3339,
      parseNaiveWith, parseDateCivil, parseTimeOfDay, parseFraction,
      parseOffset, parseOffsetHm, readFixedNat, daysFromCivil, daysInMonth,
      isLeapYear, civilToMicros, fractionMicros, resolve_submitted_time,
      min_datetime, submittedFallback, shapeResolve, average_fill_price,
      parse_datetime_value, parse_boolish, Side.try_from, c5Order, c5Open,
      c5Exec]
  have h := (claim5_emission 0 [c5Order] [] "PID").2.2.2 c5Order
    (some c5Open) c5Exec heval
  exact ⟨((claim5_emission 0 [c5Order] [] "PID").2.2.1 c5Order).mpr
      ⟨by simp [nonEmptyString, c5Order], by
        simp [extract_order_config, c5Order, configCandidate, objGet,
          JsonValue.asObject]⟩,
    heval, h.2 c5Open rfl⟩

/-! ## Claim C2 -/

theorem resolveCompletedTime_primary_none (order : RawOrder)
    (status : String) (fills_vec : Option (List FillData))
    (h : status = "OPEN" ∨
      order.completed_time.bind parse_datetime_text = none) :
    resolveCompletedTime order status fills_vec =
      (match fills_vec with
        | some fv => (fv.filterMap (fun f => f.trade_time)).getLast?
        | none => none) := by
  have hpn : (if status ≠ "OPEN" then
      order.completed_time.bind parse_datetime_text else none) = none := by
    rcases h with h | h
    · simp [h]
    · split
      · exact h
      · rfl
  simp only [resolveCompletedTime, hpn]

theorem fillsLookup_match_getLast (fills : List RawFill) (oid : String) :
    (match fillsLookup fills oid with
      | some fv => (fv.filterMap (fun f => f.trade_time)).getLast?
      | none => none) =
      ((collect_fills fills oid).filterMap (fun f => f.trade_time)).getLast? := by
  simp only [fillsLookup]
  split_ifs with hl
  · rw [hl]
    rfl
  · rfl

set_option maxHeartbeats 2000000 in
/-- Counterexample to C2 as stated: for a FILLED order with no
completed-time field and two valid fills listed latest-first, the
reconciler's `ts_filled` is the 2024-01-01 time of the *last listed* fill,
while the latest fill trade time is 2024-01-02 — the code takes
`.last()` in input order, not the maximum. -/
theorem claim2_completed_time_counterexample :
    (process_orders_internal 0 [c2Order] c2Fills "BTC-USD").2.map
        (fun r => r.ts_filled) = [some 1704067200000000] ∧
    latestFillTradeTime (collect_fills c2Fills "oid1") =
      some 1704153600000000 ∧
    c2Order.completed_time = none ∧
    orderStatus c2Order = "FILLED" ∧
    (some (1704067200000000 : Int)) ≠ some 1704153600000000 := by
  refine ⟨?_, ?_, rfl, rfl, by decide⟩
  · norm_num +decide [process_orders_internal, processOrder, nonEmptyString,
      orderStatus, toAsciiUppercase, extract_order_config, configCandidate,
      objGet, JsonValue.asObject, fillsLookup, collect_fills, validFillData,
      decimal_from_value, option_to_string, value_to_string, strTrim,
      trimChars, spanP, decimalFromString, decimalFromChars, decimalDigits,
      resolveCompletedTime, parse_datetime_text, parseRfc3339,
      parseNaiveWith, parseDateCivil, parseTimeOfDay, parseFraction,
      parseOffset, parseOffsetHm, readFixedNat, daysFromCivil, daysInMonth,
      isLeapYear, civilToMicros, fractionMicros, resolve_submitted_time,
      min_datetime, submittedFallback, shapeResolve, average_fill_price,
      parse_datetime_value, parse_boolish, Side.try_from, c2Order, c2Fills,
      c2FillEarly, c2FillLate, c2Config]
  · norm_num +decide [latestFillTradeTime, collect_fills, validFillData,
      nonEmptyString, decimal_from_value, option_to_string, value_to_string,
      strTrim, trimChars, spanP, decimalFromString, decimalFromChars,
      decimalDigits, parse_datetime_text, parseRfc3339, parseNaiveWith,
      parseDateCivil, parseTimeOfDay, parseFraction, parseOffset,
      parseOffsetHm, readFixedNat, daysFromCivil, daysInMonth, isLeapYear,
      civilToMicros, fractionMicros, c2Fills, c2FillEarly, c2FillLate]

/-- Amended C2: for every reconciled order whose primary completed time is
absent (status `OPEN`, or the completed-time field missing or
unparseable), `ts_filled` equals the trade time of the *last* valid fill
in input order that has a parseable trade time (absent when no valid fill
has one) — "latest" holds only when the fills arrive chronologically. -/
theorem claim2_completed_time_amended (wallClock : Int)
    (fills : List RawFill) (pid : String) (order : RawOrder)
    (popen : Option ProcessedOpenRecord) (pexec : ProcessedExecutedRecord)
    (oid : String)
    (happ : processOrder wallClock fills pid order = some (popen, pexec))
    (hid : nonEmptyString order.order_id = some oid)
    (hprim : orderStatus order = "OPEN" ∨
      order.completed_time.bind parse_datetime_text = none) :
    pexec.ts_filled =
      ((collect_fills fills oid).filterMap
        (fun f => f.trade_time)).getLast? := by
  obtain ⟨_, hts, _⟩ :=
    processOrder_some_fields wallClock fills pid order oid popen pexec hid
      happ
  rw [hts, resolveCompletedTime_primary_none order (orderStatus order)
    (fillsLookup fills oid) hprim, fillsLookup_match_getLast]

/-- Witness for the amended C2: the concrete order/fills pair of the
counterexample satisfies the amended description — the resolved
`ts_filled` is the last listed valid fill's trade time. -/
theorem claim2_completed_time_amended_witness :
    (processOrder 0 c2Fills "BTC-USD" c2Order).map (fun r => r.2.ts_filled) =
      some (((collect_fills c2Fills "oid1").filterMap
        (fun f => f.trade_time)).getLast?) := by
  cases hpo : processOrder 0 c2Fills "BTC-USD" c2Order with
  | none =>
    have hne := (processOrder_isSome_iff 0 c2Fills "BTC-USD" c2Order).mpr
      ⟨by simp [nonEmptyString, c2Order],
        by simp [extract_order_config, c2Order, c2Config, configCandidate,
          objGet, JsonValue.asObject]⟩
    exact absurd hpo hne
  | some pr =>
    obtain ⟨popen, pexec⟩ := pr
    have h := claim2_completed_time_amended 0 c2Fills "BTC-USD" c2Order
      popen pexec "oid1" hpo rfl (Or.inr rfl)
    simp only [Option.map_some']
    exact congrArg some h

end PnlRs
